import Mathlib

/-!
Verification of `ext/oci8/hook_funcs.c` from ruby-oci8: runtime hooking of
blocking I/O primitives (`read`, `WSARecv`, `ReadFile`) in the Oracle client
libraries, a lock-guarded registry of sockets currently inside a blocking
call, and a shutdown broadcast that interrupts every registered socket.

The C code is embedded shallowly: the procedure-dispatch table of a loaded
module is an association list from symbol names to addresses, the set of
loaded modules is an association list from file names to tables, the registry
is a list of entries (the circular doubly-linked list `sockets_in_use` with
O(1) insert/remove behaves as front insertion and removal of the named node),
and lock operations, registry operations, real-function invocations and
interrupt attempts are recorded in an event trace.
-/

namespace HookFuncs

/-- Abstract machine address of a function (`void *` in the C code). -/
abbrev Addr := Nat

/-- Embedding of `hook_func_entry_t`: symbol name, replacement address, and
the captured pre-patch address (`old_func_addr`, `NULL` before patching). -/
structure HookFuncEntry where
  func_name : String
  func_addr : Addr
  old_func_addr : Option Addr
deriving DecidableEq

/-- Procedure-dispatch table of one loaded module: symbol name to address. -/
abbrev PLTTable := List (String × Addr)

/-- Address a dispatch table currently holds for a symbol (first match). -/
def lookupSym : PLTTable → String → Option Addr
  | [], _ => none
  | (n, a) :: rest, name => if n = name then some a else lookupSym rest name

/-- Rewrite the dispatch-table entry of a symbol (first match) to a new
address; absent symbols leave the table unchanged. -/
def updateSym : PLTTable → String → Addr → PLTTable
  | [], _, _ => []
  | (n, a) :: rest, name, addr =>
    if n = name then (n, addr) :: rest else (n, a) :: updateSym rest name addr

/-- Modelled from the spec: `plthook_replace` (plthook.c is not under src/).
If the symbol is present in the module's dispatch table, rewrite its entry to
the new address and report the previous address; if the symbol is absent,
fail without modifying the table. -/
def plthook_replace (tbl : PLTTable) (name : String) (addr : Addr) :
    Option (PLTTable × Addr) :=
  match lookupSym tbl name with
  | some old => some (updateSym tbl name addr, old)
  | none => none

/-- The rollback call `plthook_replace(ph, name, old_addr, NULL)`: the
returned status and previous address are discarded. -/
def plthook_replace_rollback (tbl : PLTTable) (name : String) (addr : Addr) :
    PLTTable :=
  match plthook_replace tbl name addr with
  | some (t, _) => t
  | none => tbl

/-- Loaded modules of the process: file name to dispatch table.
`plthook_open` succeeds exactly on the files present here. -/
abbrev ModuleState := List (String × PLTTable)

/-- Dispatch table of a loaded module, `none` when `plthook_open` fails. -/
def lookupMod : ModuleState → String → Option PLTTable
  | [], _ => none
  | (f, t) :: rest, file => if f = file then some t else lookupMod rest file

/-- Replace the dispatch table of one loaded module (first match). -/
def updateMod : ModuleState → String → PLTTable → ModuleState
  | [], _, _ => []
  | (f, t) :: rest, file, tbl =>
    if f = file then (f, tbl) :: rest else (f, t) :: updateMod rest file tbl

/-- The `while (--j >= 0)` rollback loop of `replace_functions`: restore the
already-replaced symbols, most recently patched first; `done` lists the
patched symbols with their captured previous addresses, most recent first. -/
def rollback_hooks (tbl : PLTTable) (done : List (String × Addr)) : PLTTable :=
  done.foldl (fun t p => plthook_replace_rollback t p.1 p.2) tbl

/-- Result of `replace_functions`: `ok` is the `return 0` path carrying the
new module state, the hook entries with captured old addresses, and the
patched file; `patchFail` is the `rb_raise` path after rollback, carrying the
module state, the failing symbol, the file, and the restore operations
performed (symbol with restored address, in execution order); `notFound` is
the `return -1` path. -/
inductive ReplaceOutcome where
  | ok (mods : ModuleState) (funcs : List HookFuncEntry) (file : String)
  | patchFail (mods : ModuleState) (sym : String) (file : String)
      (restores : List (String × Addr))
  | notFound
deriving DecidableEq

/-- The inner `for (j = 0; ...)` loop of `replace_functions` over one opened
module: patch each hook entry in order, capturing the previous address into
`old_func_addr`; on the first failure restore the already-patched symbols in
reverse order and report the failing symbol. `done` accumulates patched
symbols with captured addresses (most recent first), `acc` the rewritten hook
entries (most recent first). -/
def install_hooks : PLTTable → List HookFuncEntry → List (String × Addr) →
    List HookFuncEntry →
    (PLTTable × List HookFuncEntry) ⊕ (PLTTable × String × List (String × Addr))
  | tbl, [], _, acc => Sum.inl (tbl, acc.reverse)
  | tbl, f :: rest, done, acc =>
    match plthook_replace tbl f.func_name f.func_addr with
    | some (tbl2, old) =>
      install_hooks tbl2 rest ((f.func_name, old) :: done)
        ({ f with old_func_addr := some old } :: acc)
    | none => Sum.inr (rollback_hooks tbl done, f.func_name, done)

/-- Embedding of `replace_functions`: walk the candidate files in order; the
first file that `plthook_open` can open is patched via `install_hooks` and
the walk stops (returning 0 or raising); if no file opens, return -1. The
second component lists the files probed by `plthook_open`, in order. -/
def replace_functions : ModuleState → List String → List HookFuncEntry →
    ReplaceOutcome × List String
  | _, [], _ => (ReplaceOutcome.notFound, [])
  | mods, file :: rest, funcs =>
    match lookupMod mods file with
    | some tbl =>
      match install_hooks tbl funcs [] [] with
      | Sum.inl (tbl2, funcs2) =>
        (ReplaceOutcome.ok (updateMod mods file tbl2) funcs2 file, [file])
      | Sum.inr (tbl2, sym, restores) =>
        (ReplaceOutcome.patchFail (updateMod mods file tbl2) sym file restores,
          [file])
    | none =>
      let r := replace_functions mods rest funcs
      (r.1, file :: r.2)

/-- Embedding of `socket_entry_t` as tracked by the registry: a unique
identity for the stack-allocated node (its address in C) and the socket. -/
structure SocketEntry where
  eid : Nat
  sock : Int
deriving DecidableEq

/-- The registry `sockets_in_use`: entries in list order, most recently
registered first (insertion happens at `sockets_in_use.next`). -/
abbrev Registry := List SocketEntry

/-- Observable events of the lock, the registry and the hooked calls. -/
inductive Event where
  | lockAcq
  | lockRel
  | registerEv (eid : Nat) (sock : Int)
  | unregisterEv (eid : Nat)
  | invokeReal (args : List Int)
  | interrupt (sock : Int)
deriving DecidableEq

/-- Embedding of `socket_entry_set`: insert the entry at the front of the
registry, under the lock. -/
def socket_entry_set (reg : Registry) (e : SocketEntry) : Registry :=
  e :: reg

/-- Events performed by `socket_entry_set`. -/
def socket_entry_set_trace (e : SocketEntry) : List Event :=
  [Event.lockAcq, Event.registerEv e.eid e.sock, Event.lockRel]

/-- Embedding of `socket_entry_clear`: unlink the named node (the first
entry with this identity) from the registry, under the lock. -/
def socket_entry_clear (reg : Registry) (eid : Nat) : Registry :=
  reg.eraseP (fun e => e.eid == eid)

/-- Events performed by `socket_entry_clear`. -/
def socket_entry_clear_trace (eid : Nat) : List Event :=
  [Event.lockAcq, Event.unregisterEv eid, Event.lockRel]

/-- Result of the real `read`: return value, bytes placed in the caller's
buffer, and `errno` — the full observable outcome of the call. -/
structure ReadResult where
  rv : Int
  buf : List Nat
  errno : Int
deriving DecidableEq

/-- Embedding of `hook_read` (the POSIX stub): register the descriptor,
invoke the real `read` with the unchanged arguments, unregister, and return
the real result unmodified. `real_read` is the un-hooked primitive, `eid`
the identity of the stack-allocated entry node. -/
def hook_read (real_read : Int → Nat → ReadResult) (reg : Registry)
    (eid : Nat) (fd : Int) (count : Nat) :
    ReadResult × Registry × List Event :=
  let entry : SocketEntry := { eid := eid, sock := fd }
  let reg1 := socket_entry_set reg entry
  let rv := real_read fd count
  let reg2 := socket_entry_clear reg1 eid
  (rv, reg2,
    socket_entry_set_trace entry ++
      [Event.invokeReal [fd, (count : Int)]] ++
      socket_entry_clear_trace eid)

/-- Arguments of `WSARecv`, each an opaque machine word. -/
structure WSARecvArgs where
  s : Int
  lpBuffers : Int
  dwBufferCount : Int
  lpNumberOfBytesRecvd : Int
  lpFlags : Int
  lpOverlapped : Int
  lpCompletionRoutine : Int
deriving DecidableEq

/-- Embedding of `hook_WSARecv` (the Windows TCP stub): register the socket,
invoke the real `WSARecv` with the unchanged arguments, unregister, and
return the real result unmodified. The outcome type is abstract: the stub
passes it through untouched. -/
def hook_WSARecv {β : Type} (real_WSARecv : WSARecvArgs → β) (reg : Registry)
    (eid : Nat) (a : WSARecvArgs) : β × Registry × List Event :=
  let entry : SocketEntry := { eid := eid, sock := a.s }
  let reg1 := socket_entry_set reg entry
  let rv := real_WSARecv a
  let reg2 := socket_entry_clear reg1 eid
  (rv, reg2,
    socket_entry_set_trace entry ++
      [Event.invokeReal [a.s, a.lpBuffers, a.dwBufferCount,
        a.lpNumberOfBytesRecvd, a.lpFlags, a.lpOverlapped,
        a.lpCompletionRoutine]] ++
      socket_entry_clear_trace eid)

/-- Arguments of `ReadFile`, each an opaque machine word. -/
structure ReadFileArgs where
  hFile : Int
  lpBuffer : Int
  nNumberOfBytesToRead : Int
  lpNumberOfBytesRead : Int
  lpOverlapped : Int
deriving DecidableEq

/-- Embedding of `hook_ReadFile` (the Windows BEQ stub): register the handle,
invoke the real `ReadFile` with the unchanged arguments, unregister, and
return the real result unmodified. -/
def hook_ReadFile {β : Type} (real_ReadFile : ReadFileArgs → β)
    (reg : Registry) (eid : Nat) (a : ReadFileArgs) :
    β × Registry × List Event :=
  let entry : SocketEntry := { eid := eid, sock := a.hFile }
  let reg1 := socket_entry_set reg entry
  let rv := real_ReadFile a
  let reg2 := socket_entry_clear reg1 eid
  (rv, reg2,
    socket_entry_set_trace entry ++
      [Event.invokeReal [a.hFile, a.lpBuffer, a.nNumberOfBytesToRead,
        a.lpNumberOfBytesRead, a.lpOverlapped]] ++
      socket_entry_clear_trace eid)

/-- Embedding of the POSIX `shutdown_socket`: `shutdown(sock, SHUT_RDWR)`,
one interrupt attempt against the entry's socket. -/
def shutdown_socket_posix (e : SocketEntry) : List Event :=
  [Event.interrupt e.sock]

/-- Embedding of the Windows `shutdown_socket`: call `CancelIoEx` on the
entry's handle when the primitive was found at startup, otherwise do
nothing. -/
def shutdown_socket_win32 (cancelIoExFound : Bool) (e : SocketEntry) :
    List Event :=
  if cancelIoExFound then [Event.interrupt e.sock] else []

/-- The `for (entry = sockets_in_use.next; ...)` loop of
`oci8_shutdown_sockets`: visit each registry entry in order, issuing its
platform interrupt. -/
def shutdown_loop (sd : SocketEntry → List Event) : Registry → List Event
  | [] => []
  | e :: rest => sd e ++ shutdown_loop sd rest

/-- Embedding of `oci8_shutdown_sockets`: under one lock acquisition, run
`shutdown_socket` on every entry currently in the registry. -/
def oci8_shutdown_sockets (sd : SocketEntry → List Event) (reg : Registry) :
    List Event :=
  Event.lockAcq :: (shutdown_loop sd reg ++ [Event.lockRel])

/-- Code address of the `hook_read` stub (its value is never interpreted). -/
def hook_read_addr : Addr := 1

/-- Code address of the `hook_WSARecv` stub. -/
def hook_WSARecv_addr : Addr := 2

/-- Code address of the `hook_ReadFile` stub. -/
def hook_ReadFile_addr : Addr := 3

/-- The POSIX candidate list `files` (Linux build, `SO_EXT` = "so"). -/
def files : List String :=
  ["libclntsh.so.12.1", "libclntsh.so.11.1", "libclntsh.so.10.1",
   "libclntsh.so.9.0"]

/-- The POSIX hook set `functions`: hook `read`. -/
def functions : List HookFuncEntry :=
  [{ func_name := "read", func_addr := hook_read_addr, old_func_addr := none }]

/-- The Windows TCP candidate list `tcp_func_files`. -/
def tcp_func_files : List String :=
  ["orantcp12.dll", "orantcp11.dll", "orantcp10.dll", "orantcp9.dll",
   "oraociei12.dll", "oraociei11.dll", "oraociei10.dll",
   "oraociicus12.dll", "oraociicus11.dll", "oraociicus10.dll"]

/-- The Windows TCP hook set `tcp_functions`: hook `WSARecv`. -/
def tcp_functions : List HookFuncEntry :=
  [{ func_name := "WSARecv", func_addr := hook_WSARecv_addr,
     old_func_addr := none }]

/-- The Windows BEQ candidate list `beq_func_files`. -/
def beq_func_files : List String :=
  ["oranbeq12.dll", "oranbeq11.dll", "oranbeq10.dll", "oranbeq9.dll"]

/-- The Windows BEQ hook set `beq_functions`: hook `ReadFile`. -/
def beq_functions : List HookFuncEntry :=
  [{ func_name := "ReadFile", func_addr := hook_ReadFile_addr,
     old_func_addr := none }]

/-- The message of the `rb_raise` in `replace_functions`. -/
def raise_message (sym file : String) : String :=
  "Could not replace function " ++ sym ++ " in " ++ file

/-- Embedding of the POSIX `oci8_install_hook_functions`: patch the primary
hook set; the second component is the raised error message, `none` on normal
return. -/
def oci8_install_hook_functions (mods : ModuleState) :
    ModuleState × Option String :=
  match (replace_functions mods files functions).1 with
  | ReplaceOutcome.ok mods2 _ _ => (mods2, none)
  | ReplaceOutcome.notFound =>
    (mods, some "No shared library is found to hook.")
  | ReplaceOutcome.patchFail mods2 sym file _ =>
    (mods2, some (raise_message sym file))

/-- Mutable Windows-side state: whether `GetProcAddress` found `CancelIoEx`
at startup (`CancelIoEx_func != NULL`), the static flag
`beq_func_replaced`, and the loaded modules. -/
structure Win32State where
  cancelIoEx : Bool
  beq_func_replaced : Bool
  mods : ModuleState
deriving DecidableEq

/-- Embedding of the Windows `oci8_install_hook_functions`: detect
`CancelIoEx` once, then patch the TCP hook set; the second component is the
raised error message, `none` on normal return. -/
def oci8_install_hook_functions_win32 (cancelIoExFound : Bool)
    (mods : ModuleState) : Win32State × Option String :=
  let s : Win32State :=
    { cancelIoEx := cancelIoExFound, beq_func_replaced := false, mods := mods }
  match (replace_functions mods tcp_func_files tcp_functions).1 with
  | ReplaceOutcome.ok mods2 _ _ => ({ s with mods := mods2 }, none)
  | ReplaceOutcome.notFound => (s, some "No DLL is found to hook.")
  | ReplaceOutcome.patchFail mods2 sym file _ =>
    ({ s with mods := mods2 }, some (raise_message sym file))

/-- Embedding of `oci8_check_win32_beq_functions`: when `CancelIoEx` was
found and the BEQ hooks are not yet installed, run `replace_functions` on
the BEQ set, setting `beq_func_replaced` on success; otherwise return at
once. Results: the new state, the number of `replace_functions` (resolution)
attempts made by this call, and the raised error message (`none` on normal
return). -/
def oci8_check_win32_beq_functions (s : Win32State) :
    Win32State × Nat × Option String :=
  if s.cancelIoEx && !s.beq_func_replaced then
    match (replace_functions s.mods beq_func_files beq_functions).1 with
    | ReplaceOutcome.ok mods2 _ _ =>
      ({ s with mods := mods2, beq_func_replaced := true }, 1, none)
    | ReplaceOutcome.notFound => (s, 1, none)
    | ReplaceOutcome.patchFail mods2 sym file _ =>
      ({ s with mods := mods2 }, 1, some (raise_message sym file))
  else
    (s, 0, none)

/-- Iterate `oci8_check_win32_beq_functions`, keeping only the state. -/
def iterateCheck : Nat → Win32State → Win32State
  | 0, s => s
  | n + 1, s => iterateCheck n (oci8_check_win32_beq_functions s).1

/-- Register a sequence of entries, in order, with no intervening
unregisters. -/
def registerAll (es : List SocketEntry) : Registry :=
  es.foldl socket_entry_set []

/-- File selected by a `replace_functions` outcome, `none` when no candidate
opened. -/
def outcome_file : ReplaceOutcome → Option String
  | ReplaceOutcome.ok _ _ f => some f
  | ReplaceOutcome.patchFail _ _ f _ => some f
  | ReplaceOutcome.notFound => none

/-- Module state after a `replace_functions` outcome (`notFound` leaves the
starting state). -/
def outcome_mods (mods : ModuleState) : ReplaceOutcome → ModuleState
  | ReplaceOutcome.ok m _ _ => m
  | ReplaceOutcome.patchFail m _ _ _ => m
  | ReplaceOutcome.notFound => mods

/-- Test for an interrupt-attempt event. -/
def is_interrupt : Event → Bool
  | Event.interrupt _ => true
  | _ => false

/-- Concrete module state used to evaluate the patch-rollback theorem: one
Oracle client library exposing `read` and `write` but not `close`. -/
def sampleMods : ModuleState :=
  [("libclntsh.so.12.1", [("read", 100), ("write", 200)])]

/-- Concrete hook sequence whose third symbol is absent from `sampleMods`,
forcing a patch failure after two successful replacements. -/
def sampleFuncs : List HookFuncEntry :=
  [{ func_name := "read", func_addr := 1, old_func_addr := none },
   { func_name := "write", func_addr := 2, old_func_addr := none },
   { func_name := "close", func_addr := 3, old_func_addr := none }]

/-- Concrete Windows state in which `oranbeq12.dll` is loaded but exposes no
`ReadFile` symbol, so the lazy BEQ install hits the `rb_raise` path. -/
def beqFailState : Win32State :=
  { cancelIoEx := true, beq_func_replaced := false,
    mods := [("oranbeq12.dll", [("WriteFile", 77)])] }

/-- Concrete module state for the resolver scenario: of the candidates
`["libx.2", "libx.1"]` only `libx.1` is present. -/
def libxMods : ModuleState := [("libx.1", [("read", 100)])]

/-! Basic dispatch-table lemmas. -/

theorem lookupSym_updateSym (tbl : PLTTable) (name : String) (a : Addr) :
    lookupSym (updateSym tbl name a) name =
      (lookupSym tbl name).map (fun _ => a) := by
  induction tbl with
  | nil => rfl
  | cons p rest ih =>
    obtain ⟨n, b⟩ := p
    by_cases h : n = name
    · simp [updateSym, lookupSym, h]
    · simp [updateSym, lookupSym, h, ih]

theorem updateSym_restore (tbl : PLTTable) (name : String) (a old : Addr)
    (h : lookupSym tbl name = some old) :
    updateSym (updateSym tbl name a) name old = tbl := by
  induction tbl with
  | nil => simp [lookupSym] at h
  | cons p rest ih =>
    obtain ⟨n, b⟩ := p
    by_cases hn : n = name
    · simp [lookupSym, hn] at h
      simp [updateSym, hn, h]
    · simp [lookupSym, hn] at h
      simp [updateSym, hn, ih h]

theorem plthook_replace_rollback_restore (tbl : PLTTable) (name : String)
    (a old : Addr) (h : lookupSym tbl name = some old) :
    plthook_replace_rollback (updateSym tbl name a) name old = tbl := by
  simp [plthook_replace_rollback, plthook_replace, lookupSym_updateSym, h,
    updateSym_restore tbl name a old h]

theorem plthook_replace_eq_some (tbl : PLTTable) (name : String) (a : Addr)
    (t : PLTTable) (old : Addr)
    (h : plthook_replace tbl name a = some (t, old)) :
    lookupSym tbl name = some old ∧ t = updateSym tbl name a := by
  unfold plthook_replace at h
  cases hl : lookupSym tbl name with
  | none => rw [hl] at h; simp at h
  | some o =>
    rw [hl] at h
    simp at h
    exact ⟨by rw [h.2], h.1.symm⟩

theorem rollback_hooks_cons (tbl : PLTTable) (p : String × Addr)
    (done : List (String × Addr)) :
    rollback_hooks tbl (p :: done) =
      rollback_hooks (plthook_replace_rollback tbl p.1 p.2) done := rfl

theorem lookupMod_updateMod_ne (mods : ModuleState) (f g : String)
    (t : PLTTable) (h : g ≠ f) :
    lookupMod (updateMod mods f t) g = lookupMod mods g := by
  induction mods with
  | nil => rfl
  | cons p rest ih =>
    obtain ⟨n, b⟩ := p
    by_cases hn : n = f
    · subst hn
      simp [updateMod, lookupMod, Ne.symm h]
    · simp [updateMod, lookupMod, hn, ih]

theorem updateMod_self (mods : ModuleState) (f : String) (t : PLTTable)
    (h : lookupMod mods f = some t) : updateMod mods f t = mods := by
  induction mods with
  | nil => simp [lookupMod] at h
  | cons p rest ih =>
    obtain ⟨n, b⟩ := p
    by_cases hn : n = f
    · simp [lookupMod, hn] at h
      simp [updateMod, hn, h]
    · simp [lookupMod, hn] at h
      simp [updateMod, hn, ih h]

/-! Rollback correctness of the inner patch loop. -/

theorem install_hooks_fail (funcs : List HookFuncEntry) :
    ∀ (tbl : PLTTable) (done : List (String × Addr))
      (acc : List HookFuncEntry) (tblR : PLTTable) (sym : String)
      (restores : List (String × Addr)),
      install_hooks tbl funcs done acc = Sum.inr (tblR, sym, restores) →
      tblR = rollback_hooks tbl done ∧
      ∃ k, ∃ hk : k < funcs.length,
        sym = (funcs.get ⟨k, hk⟩).func_name ∧
        restores.map Prod.fst =
          ((funcs.take k).map HookFuncEntry.func_name).reverse ++
            done.map Prod.fst := by
  induction funcs with
  | nil =>
    intro tbl done acc tblR sym restores h
    simp [install_hooks] at h
  | cons f rest ih =>
    intro tbl done acc tblR sym restores h
    unfold install_hooks at h
    cases hrep : plthook_replace tbl f.func_name f.func_addr with
    | none =>
      rw [hrep] at h
      simp at h
      obtain ⟨h1, h2, h3⟩ := h
      refine ⟨h1.symm, 0, by simp, by simp [h2], by simp [h3]⟩
    | some pr =>
      obtain ⟨tbl2, old⟩ := pr
      rw [hrep] at h
      simp at h
      obtain ⟨hlook, htbl2⟩ := plthook_replace_eq_some tbl f.func_name
        f.func_addr tbl2 old hrep
      obtain ⟨h1, k, hk, h2, h3⟩ :=
        ih tbl2 ((f.func_name, old) :: done) _ tblR sym restores h
      refine ⟨?_, k + 1, by simpa using Nat.succ_lt_succ hk, by simpa using h2, ?_⟩
      · rw [h1, rollback_hooks_cons]
        have : plthook_replace_rollback tbl2 f.func_name old = tbl := by
          rw [htbl2]
          exact plthook_replace_rollback_restore tbl f.func_name
            f.func_addr old hlook
        rw [this]
      · rw [h3]
        simp [List.take_succ_cons]

theorem replace_functions_patchFail_core :
    ∀ (fs : List String) (mods mods2 : ModuleState)
      (funcs : List HookFuncEntry) (sym file : String)
      (restores : List (String × Addr)),
      (replace_functions mods fs funcs).1 =
        ReplaceOutcome.patchFail mods2 sym file restores →
      mods2 = mods ∧ (lookupMod mods file).isSome ∧
      ∃ k, ∃ hk : k < funcs.length,
        sym = (funcs.get ⟨k, hk⟩).func_name ∧
        restores.map Prod.fst =
          ((funcs.take k).map HookFuncEntry.func_name).reverse := by
  intro fs
  induction fs with
  | nil =>
    intro mods mods2 funcs sym file restores h
    simp [replace_functions] at h
  | cons f0 rest ih =>
    intro mods mods2 funcs sym file restores h
    unfold replace_functions at h
    split at h
    · next tbl hl =>
      split at h
      · next pr hins => simp at h
      · next tblR sym0 rs0 hins =>
        simp at h
        obtain ⟨hm, hs, hf, hr⟩ := h
        obtain ⟨h1, k, hk, h2, h3⟩ :=
          install_hooks_fail funcs tbl [] [] tblR sym0 rs0 hins
        have htblR : tblR = tbl := by simpa [rollback_hooks] using h1
        subst hf
        refine ⟨?_, by simp [hl], k, hk, by rw [← hs, h2], ?_⟩
        · rw [← hm, htblR]
          exact updateMod_self mods f0 tbl hl
        · rw [← hr, h3]
          simp
    · next hl =>
      simp at h
      exact ih mods mods2 funcs sym file restores h

/-! Resolver lemmas: which candidate file gets patched. -/

theorem replace_functions_notFound (funcs : List HookFuncEntry) :
    ∀ (fs : List String) (mods : ModuleState),
      (∀ g ∈ fs, lookupMod mods g = none) →
      replace_functions mods fs funcs = (ReplaceOutcome.notFound, fs) := by
  intro fs
  induction fs with
  | nil => intro mods _; rfl
  | cons f0 rest ih =>
    intro mods hnone
    have h0 : lookupMod mods f0 = none := hnone f0 (by simp)
    have hrest := ih mods (fun g hg => hnone g (by simp [hg]))
    simp [replace_functions, h0, hrest]

theorem replace_functions_first_openable (funcs : List HookFuncEntry) :
    ∀ (pre : List String) (mods : ModuleState) (f : String)
      (post : List String),
      (∀ g ∈ pre, lookupMod mods g = none) →
      (lookupMod mods f).isSome →
      (replace_functions mods (pre ++ f :: post) funcs).2 = pre ++ [f] ∧
      outcome_file (replace_functions mods (pre ++ f :: post) funcs).1 =
        some f ∧
      ∀ g, g ≠ f →
        lookupMod
            (outcome_mods mods
              (replace_functions mods (pre ++ f :: post) funcs).1) g =
          lookupMod mods g := by
  intro pre
  induction pre with
  | nil =>
    intro mods f post _ hopen
    obtain ⟨tbl, htbl⟩ := Option.isSome_iff_exists.mp hopen
    simp only [List.nil_append]
    cases hins : install_hooks tbl funcs [] [] with
    | inl pr =>
      obtain ⟨tbl2, funcs2⟩ := pr
      have hrw : replace_functions mods (f :: post) funcs =
          (ReplaceOutcome.ok (updateMod mods f tbl2) funcs2 f, [f]) := by
        simp [replace_functions, htbl, hins]
      rw [hrw]
      refine ⟨rfl, rfl, fun g hg => ?_⟩
      simp [outcome_mods, lookupMod_updateMod_ne mods f g tbl2 hg]
    | inr pr =>
      obtain ⟨tblR, sym0, rs0⟩ := pr
      have hrw : replace_functions mods (f :: post) funcs =
          (ReplaceOutcome.patchFail (updateMod mods f tblR) sym0 f rs0,
            [f]) := by
        simp [replace_functions, htbl, hins]
      rw [hrw]
      refine ⟨rfl, rfl, fun g hg => ?_⟩
      simp [outcome_mods, lookupMod_updateMod_ne mods f g tblR hg]
  | cons g0 pre2 ih =>
    intro mods f post hnone hopen
    have h0 : lookupMod mods g0 = none := hnone g0 (by simp)
    have hstep : replace_functions mods ((g0 :: pre2) ++ f :: post) funcs =
        ((replace_functions mods (pre2 ++ f :: post) funcs).1,
          g0 :: (replace_functions mods (pre2 ++ f :: post) funcs).2) := by
      simp [replace_functions, h0]
    obtain ⟨h1, h2, h3⟩ :=
      ih mods f post (fun g hg => hnone g (by simp [hg])) hopen
    rw [hstep]
    exact ⟨by simp [h1], h2, h3⟩

/-! Trace lemmas for the shutdown broadcast and the registry. -/

theorem shutdown_loop_posix (reg : Registry) :
    shutdown_loop shutdown_socket_posix reg =
      reg.map (fun e => Event.interrupt e.sock) := by
  induction reg with
  | nil => rfl
  | cons e rest ih => simp [shutdown_loop, shutdown_socket_posix, ih]

theorem shutdown_loop_win32_avail (reg : Registry) :
    shutdown_loop (shutdown_socket_win32 true) reg =
      reg.map (fun e => Event.interrupt e.sock) := by
  induction reg with
  | nil => rfl
  | cons e rest ih => simp [shutdown_loop, shutdown_socket_win32, ih]

theorem shutdown_loop_win32_noop (reg : Registry) :
    shutdown_loop (shutdown_socket_win32 false) reg = [] := by
  induction reg with
  | nil => rfl
  | cons e rest ih => simp [shutdown_loop, shutdown_socket_win32, ih]

theorem registerAll_go (es : List SocketEntry) :
    ∀ acc : Registry, es.foldl socket_entry_set acc = es.reverse ++ acc := by
  induction es with
  | nil => intro acc; simp
  | cons e rest ih => intro acc; simp [socket_entry_set, ih]

theorem registerAll_eq_reverse (es : List SocketEntry) :
    registerAll es = es.reverse := by
  simpa using registerAll_go es []

theorem count_lockAcq_interrupts (reg : Registry) :
    (reg.map (fun e => Event.interrupt e.sock)).count Event.lockAcq = 0 := by
  rw [List.count_eq_zero]
  simp

theorem filter_interrupts (reg : Registry) :
    (reg.map (fun e => Event.interrupt e.sock)).filter is_interrupt =
      reg.map (fun e => Event.interrupt e.sock) := by
  induction reg with
  | nil => rfl
  | cons e rest ih => simp [is_interrupt, ih]

/-! Claim theorems. -/

/-- C1: when `replace_functions` fails while patching symbol k of an opened
module, every symbol at indices 0..k-1 already replaced is restored to its
captured pre-patch address, the restore operations run in reverse index
order (k-1 down to 0), the reported failure names the failing symbol and
the module file, and afterwards no dispatch-table entry of any module
remains modified. -/
theorem replace_functions_atomic_rollback (fs : List String)
    (mods mods2 : ModuleState) (funcs : List HookFuncEntry)
    (sym file : String) (restores : List (String × Addr))
    (h : (replace_functions mods fs funcs).1 =
      ReplaceOutcome.patchFail mods2 sym file restores) :
    mods2 = mods ∧ (lookupMod mods file).isSome ∧
    ∃ k, ∃ hk : k < funcs.length,
      sym = (funcs.get ⟨k, hk⟩).func_name ∧
      restores.map Prod.fst =
        ((funcs.take k).map HookFuncEntry.func_name).reverse :=
  replace_functions_patchFail_core fs mods mods2 funcs sym file restores h

/-- Witness for C1 at a concrete input: three hook specs against a module
exposing only the first two symbols; the failure names `close`, the restores
run in reverse order, and the module state is unchanged. -/
theorem replace_functions_atomic_rollback_witness :
    sampleMods = sampleMods ∧
    (lookupMod sampleMods "libclntsh.so.12.1").isSome ∧
    ∃ k, ∃ hk : k < sampleFuncs.length,
      "close" = (sampleFuncs.get ⟨k, hk⟩).func_name ∧
      List.map Prod.fst
          ([("write", 200), ("read", 100)] : List (String × Addr)) =
        ((sampleFuncs.take k).map HookFuncEntry.func_name).reverse :=
  replace_functions_atomic_rollback files sampleMods sampleMods sampleFuncs
    "close" "libclntsh.so.12.1" [("write", 200), ("read", 100)] (by decide)

/-- C5: the resolver walks the candidate list in order, selects the first
present/openable module, probes nothing beyond it, patches only that
module, and reports a resolution failure when no candidate is openable. -/
theorem resolver_first_openable :
    (∀ (mods : ModuleState) (funcs : List HookFuncEntry)
        (pre : List String) (f : String) (post : List String),
      (∀ g ∈ pre, lookupMod mods g = none) →
      (lookupMod mods f).isSome →
      (replace_functions mods (pre ++ f :: post) funcs).2 = pre ++ [f] ∧
      outcome_file (replace_functions mods (pre ++ f :: post) funcs).1 =
        some f ∧
      ∀ g, g ≠ f →
        lookupMod
            (outcome_mods mods
              (replace_functions mods (pre ++ f :: post) funcs).1) g =
          lookupMod mods g) ∧
    (∀ (mods : ModuleState) (funcs : List HookFuncEntry) (fs : List String),
      (∀ g ∈ fs, lookupMod mods g = none) →
      replace_functions mods fs funcs = (ReplaceOutcome.notFound, fs)) :=
  ⟨fun mods funcs pre f post h1 h2 =>
      replace_functions_first_openable funcs pre mods f post h1 h2,
    fun mods funcs fs h => replace_functions_notFound funcs fs mods h⟩

/-- Witness for C5 at the spec's scenario: candidates `["libx.2", "libx.1"]`
with only `libx.1` present; the resolver probes both, selects `libx.1`, and
leaves the (absent) `libx.2` untouched. -/
theorem resolver_first_openable_witness :
    (replace_functions libxMods ["libx.2", "libx.1"] functions).2 =
      ["libx.2", "libx.1"] ∧
    outcome_file (replace_functions libxMods ["libx.2", "libx.1"]
      functions).1 = some "libx.1" ∧
    lookupMod
        (outcome_mods libxMods
          (replace_functions libxMods ["libx.2", "libx.1"] functions).1)
        "libx.2" =
      lookupMod libxMods "libx.2" := by
  have h := resolver_first_openable.1 libxMods functions ["libx.2"]
    "libx.1" [] (by decide) (by decide)
  exact ⟨h.1, h.2.1, h.2.2 "libx.2" (by decide)⟩

/-- C3: `oci8_shutdown_sockets` acquires the registry lock exactly once, and
under that single acquisition every entry present in the registry at call
time receives exactly one interrupt attempt, in registry order (shown for
the POSIX backend and the Windows backend with `CancelIoEx` available); the
call invokes no blocking primitive, so it does not wait for the blocked
calls to return. -/
theorem oci8_shutdown_sockets_broadcast (reg : Registry) :
    (oci8_shutdown_sockets shutdown_socket_posix reg).count
      Event.lockAcq = 1 ∧
    (oci8_shutdown_sockets shutdown_socket_posix reg).filter is_interrupt =
      reg.map (fun e => Event.interrupt e.sock) ∧
    (oci8_shutdown_sockets (shutdown_socket_win32 true) reg).filter
        is_interrupt =
      reg.map (fun e => Event.interrupt e.sock) ∧
    ∀ args, Event.invokeReal args ∉
      oci8_shutdown_sockets shutdown_socket_posix reg := by
  refine ⟨?_, ?_, ?_, ?_⟩
  · simp [oci8_shutdown_sockets, shutdown_loop_posix, List.count_cons,
      List.count_append, count_lockAcq_interrupts]
  · simp [oci8_shutdown_sockets, shutdown_loop_posix, List.filter_append,
      filter_interrupts, is_interrupt]
  · simp [oci8_shutdown_sockets, shutdown_loop_win32_avail,
      List.filter_append, filter_interrupts, is_interrupt]
  · intro args
    simp [oci8_shutdown_sockets, shutdown_loop_posix]

/-- C8: on the Windows backend with `CancelIoEx` not found at startup, the
per-entry interrupt operation is a guaranteed no-op, and the whole
cancellation broadcast degrades to taking and releasing the lock. -/
theorem shutdown_noop_when_cancel_absent :
    (∀ e : SocketEntry, shutdown_socket_win32 false e = []) ∧
    ∀ reg : Registry,
      oci8_shutdown_sockets (shutdown_socket_win32 false) reg =
        [Event.lockAcq, Event.lockRel] := by
  refine ⟨fun e => rfl, fun reg => ?_⟩
  simp [oci8_shutdown_sockets, shutdown_loop_win32_noop]

/-- C9: registering N entries with no intervening unregisters yields a
registry holding exactly those N entries in most-recently-registered-first
order, so a full traversal visits each exactly once (when the entry nodes
are distinct) in that order. -/
theorem registry_traversal_complete (es : List SocketEntry) :
    registerAll es = es.reverse ∧
    (registerAll es).length = es.length ∧
    shutdown_loop shutdown_socket_posix (registerAll es) =
      es.reverse.map (fun e => Event.interrupt e.sock) ∧
    ((es.map SocketEntry.eid).Nodup →
      ∀ e ∈ es, (registerAll es).count e = 1) := by
  refine ⟨registerAll_eq_reverse es, by simp [registerAll_eq_reverse],
    by simp [registerAll_eq_reverse, shutdown_loop_posix], ?_⟩
  intro hnd e he
  rw [registerAll_eq_reverse, List.count_reverse]
  exact List.count_eq_one_of_mem hnd.of_map he

/-- Witness for C9 at a concrete input: two distinct entries registered in
order appear reversed in the registry and are each counted once. -/
theorem registry_traversal_complete_witness :
    registerAll [⟨0, 5⟩, ⟨1, 6⟩] = [⟨1, 6⟩, ⟨0, 5⟩] ∧
    (registerAll [⟨0, 5⟩, ⟨1, 6⟩]).count ⟨0, 5⟩ = 1 := by
  have h := registry_traversal_complete [⟨0, 5⟩, ⟨1, 6⟩]
  exact ⟨h.1, h.2.2.2 (by decide) ⟨0, 5⟩ (by decide)⟩

/-- C2: every interceptor stub registers the call's handle, invokes the real
primitive with the original arguments unchanged, unregisters the handle, and
returns the real result byte-for-byte unmodified, leaving the registry as it
found it — shown for `hook_read`, `hook_WSARecv` and `hook_ReadFile`. -/
theorem hook_stubs_transparent :
    (∀ (real_read : Int → Nat → ReadResult) (reg : Registry) (eid : Nat)
        (fd : Int) (count : Nat),
      (hook_read real_read reg eid fd count).1 = real_read fd count ∧
      (hook_read real_read reg eid fd count).2.1 = reg ∧
      (hook_read real_read reg eid fd count).2.2 =
        [Event.lockAcq, Event.registerEv eid fd, Event.lockRel,
         Event.invokeReal [fd, (count : Int)],
         Event.lockAcq, Event.unregisterEv eid, Event.lockRel]) ∧
    (∀ (β : Type) (real_WSARecv : WSARecvArgs → β) (reg : Registry)
        (eid : Nat) (a : WSARecvArgs),
      (hook_WSARecv real_WSARecv reg eid a).1 = real_WSARecv a ∧
      (hook_WSARecv real_WSARecv reg eid a).2.1 = reg ∧
      (hook_WSARecv real_WSARecv reg eid a).2.2 =
        [Event.lockAcq, Event.registerEv eid a.s, Event.lockRel,
         Event.invokeReal [a.s, a.lpBuffers, a.dwBufferCount,
           a.lpNumberOfBytesRecvd, a.lpFlags, a.lpOverlapped,
           a.lpCompletionRoutine],
         Event.lockAcq, Event.unregisterEv eid, Event.lockRel]) ∧
    (∀ (β : Type) (real_ReadFile : ReadFileArgs → β) (reg : Registry)
        (eid : Nat) (a : ReadFileArgs),
      (hook_ReadFile real_ReadFile reg eid a).1 = real_ReadFile a ∧
      (hook_ReadFile real_ReadFile reg eid a).2.1 = reg ∧
      (hook_ReadFile real_ReadFile reg eid a).2.2 =
        [Event.lockAcq, Event.registerEv eid a.hFile, Event.lockRel,
         Event.invokeReal [a.hFile, a.lpBuffer, a.nNumberOfBytesToRead,
           a.lpNumberOfBytesRead, a.lpOverlapped],
         Event.lockAcq, Event.unregisterEv eid, Event.lockRel]) := by
  refine ⟨fun real_read reg eid fd count => ⟨rfl, ?_, rfl⟩,
    fun β real_WSARecv reg eid a => ⟨rfl, ?_, rfl⟩,
    fun β real_ReadFile reg eid a => ⟨rfl, ?_, rfl⟩⟩ <;>
    simp [hook_read, hook_WSARecv, hook_ReadFile, socket_entry_set,
      socket_entry_clear, List.eraseP_cons]

/-- C4: a registry entry lives exactly for the duration of one blocking
call: it is inserted immediately before the real invocation and removed
immediately after it, register/unregister happen exactly once, the registry
is restored on return, and (for a fresh entry node) the entry appears in no
traversal of the post-call registry. -/
theorem socket_entry_lifetime (real_read : Int → Nat → ReadResult)
    (reg : Registry) (eid : Nat) (fd : Int) (count : Nat)
    (hfresh : eid ∉ reg.map SocketEntry.eid) :
    (hook_read real_read reg eid fd count).2.1 = reg ∧
    eid ∉ ((hook_read real_read reg eid fd count).2.1).map
      SocketEntry.eid ∧
    (⟨eid, fd⟩ : SocketEntry) ∈ socket_entry_set reg ⟨eid, fd⟩ ∧
    (hook_read real_read reg eid fd count).2.2 =
      [Event.lockAcq, Event.registerEv eid fd, Event.lockRel,
       Event.invokeReal [fd, (count : Int)],
       Event.lockAcq, Event.unregisterEv eid, Event.lockRel] ∧
    ((hook_read real_read reg eid fd count).2.2).count
      (Event.registerEv eid fd) = 1 ∧
    ((hook_read real_read reg eid fd count).2.2).count
      (Event.unregisterEv eid) = 1 ∧
    ∀ e ∈ (hook_read real_read reg eid fd count).2.1, e.eid ≠ eid := by
  have hreg : (hook_read real_read reg eid fd count).2.1 = reg := by
    simp [hook_read, socket_entry_set, socket_entry_clear, List.eraseP_cons]
  refine ⟨hreg, by rw [hreg]; exact hfresh, by simp [socket_entry_set],
    rfl, by simp [hook_read, socket_entry_set_trace,
      socket_entry_clear_trace, List.count_cons],
    by simp [hook_read, socket_entry_set_trace, socket_entry_clear_trace,
      List.count_cons], ?_⟩
  intro e he heq
  rw [hreg] at he
  exact hfresh (heq ▸ List.mem_map_of_mem SocketEntry.eid he)

/-- Witness for C4 at a concrete input: a fresh entry around a read of five
bytes leaves the one-element registry unchanged and produces the exact
register/invoke/unregister trace. -/
theorem socket_entry_lifetime_witness :
    (hook_read (fun _ _ => ⟨5, [1, 2, 3, 4, 5], 0⟩) [⟨9, 3⟩] 0 7 5).2.1 =
      [⟨9, 3⟩] ∧
    (hook_read (fun _ _ => ⟨5, [1, 2, 3, 4, 5], 0⟩) [⟨9, 3⟩] 0 7 5).2.2 =
      [Event.lockAcq, Event.registerEv 0 7, Event.lockRel,
       Event.invokeReal [7, 5],
       Event.lockAcq, Event.unregisterEv 0, Event.lockRel] ∧
    ((hook_read (fun _ _ => ⟨5, [1, 2, 3, 4, 5], 0⟩)
        [⟨9, 3⟩] 0 7 5).2.2).count (Event.registerEv 0 7) = 1 ∧
    ((hook_read (fun _ _ => ⟨5, [1, 2, 3, 4, 5], 0⟩)
        [⟨9, 3⟩] 0 7 5).2.2).count (Event.unregisterEv 0) = 1 := by
  have h := socket_entry_lifetime (fun _ _ => ⟨5, [1, 2, 3, 4, 5], 0⟩)
    [⟨9, 3⟩] 0 7 5 (by decide)
  exact ⟨h.1, h.2.2.2.1, h.2.2.2.2.1, h.2.2.2.2.2.1⟩

theorem check_beq_installed (s : Win32State)
    (h : s.beq_func_replaced = true) :
    oci8_check_win32_beq_functions s = (s, 0, none) := by
  simp [oci8_check_win32_beq_functions, h]

theorem check_attempts (s : Win32State) (h1 : s.cancelIoEx = true)
    (h2 : s.beq_func_replaced = false) :
    (oci8_check_win32_beq_functions s).2.1 = 1 := by
  simp only [oci8_check_win32_beq_functions, h1, h2, Bool.not_false,
    Bool.and_true, if_true]
  split <;> rfl

/-- C6: `oci8_check_win32_beq_functions` is idempotent: it makes a
resolution attempt only while the BEQ set is not installed, and once the
flag is set every subsequent call returns immediately, unchanged, with no
further resolution or patching. -/
theorem check_beq_idempotent (s : Win32State) :
    (s.beq_func_replaced = true →
      oci8_check_win32_beq_functions s = (s, 0, none)) ∧
    ((oci8_check_win32_beq_functions s).2.1 ≠ 0 →
      s.beq_func_replaced = false) ∧
    ((oci8_check_win32_beq_functions s).1.beq_func_replaced = true →
      oci8_check_win32_beq_functions (oci8_check_win32_beq_functions s).1 =
        ((oci8_check_win32_beq_functions s).1, 0, none)) := by
  refine ⟨check_beq_installed s, ?_, fun h => check_beq_installed _ h⟩
  intro h
  cases hsb : s.beq_func_replaced with
  | false => rfl
  | true => rw [check_beq_installed s hsb] at h; simp at h

/-- Witness for C6 at a concrete input: with the BEQ flag already set, a
call returns its state unchanged with zero resolution attempts. -/
theorem check_beq_idempotent_witness :
    oci8_check_win32_beq_functions ⟨true, true, []⟩ =
      (⟨true, true, []⟩, 0, none) :=
  (check_beq_idempotent ⟨true, true, []⟩).1 rfl

/-- C7 counterexample: with `oranbeq12.dll` present but lacking the
`ReadFile` symbol, the lazy install attempt raises an error instead of
silently absorbing the failure. -/
theorem lazy_install_failure_counterexample :
    (oci8_check_win32_beq_functions beqFailState).2.2 ≠ none := by decide

/-- C7 (amended): a failed lazy-install attempt leaves the BEQ set
NotInstalled with the module state fully restored, and the install is
retried on the next call; a resolution failure (no BEQ DLL openable) is
silently absorbed without raising, but a patch failure inside an opened DLL
raises an error naming the failing symbol and DLL. -/
theorem lazy_install_failure_amended (s : Win32State)
    (h1 : s.cancelIoEx = true) (h2 : s.beq_func_replaced = false) :
    (oci8_check_win32_beq_functions s).2.1 = 1 ∧
    ((oci8_check_win32_beq_functions s).1.beq_func_replaced = false →
      (oci8_check_win32_beq_functions s).1.mods = s.mods ∧
      (oci8_check_win32_beq_functions
        (oci8_check_win32_beq_functions s).1).2.1 = 1) ∧
    ((replace_functions s.mods beq_func_files beq_functions).1 =
        ReplaceOutcome.notFound →
      oci8_check_win32_beq_functions s = (s, 1, none)) ∧
    (∀ m sym file rs,
      (replace_functions s.mods beq_func_files beq_functions).1 =
        ReplaceOutcome.patchFail m sym file rs →
      (oci8_check_win32_beq_functions s).2.2 =
        some (raise_message sym file) ∧
      (oci8_check_win32_beq_functions s).1.mods = s.mods) := by
  refine ⟨check_attempts s h1 h2, ?_, ?_, ?_⟩
  · cases hrep : (replace_functions s.mods beq_func_files beq_functions).1
      with
    | ok m2 fs2 f2 =>
      have hc : oci8_check_win32_beq_functions s =
          ({ s with mods := m2, beq_func_replaced := true }, 1, none) := by
        simp [oci8_check_win32_beq_functions, h1, h2, hrep]
      rw [hc]
      intro hb
      simp at hb
    | notFound =>
      have hc : oci8_check_win32_beq_functions s = (s, 1, none) := by
        simp [oci8_check_win32_beq_functions, h1, h2, hrep]
      rw [hc]
      intro _
      exact ⟨rfl, by rw [hc]⟩
    | patchFail m2 sym2 f2 rs2 =>
      have hm2 : m2 = s.mods :=
        (replace_functions_patchFail_core beq_func_files s.mods m2
          beq_functions sym2 f2 rs2 hrep).1
      have hc : oci8_check_win32_beq_functions s =
          ({ s with mods := m2 }, 1,
            some (raise_message sym2 f2)) := by
        simp [oci8_check_win32_beq_functions, h1, h2, hrep]
      rw [hc]
      intro _
      refine ⟨by simp [hm2], ?_⟩
      exact check_attempts { s with mods := m2 } (by simp [h1])
        (by simp [h2])
  · intro hnf
    simp [oci8_check_win32_beq_functions, h1, h2, hnf]
  · intro m sym file rs hpf
    have hm : m = s.mods :=
      (replace_functions_patchFail_core beq_func_files s.mods m
        beq_functions sym file rs hpf).1
    have hc : oci8_check_win32_beq_functions s =
        ({ s with mods := m }, 1, some (raise_message sym file)) := by
      simp [oci8_check_win32_beq_functions, h1, h2, hpf]
    rw [hc]
    exact ⟨rfl, by simp [hm]⟩

/-- Witness for C7 (amended) at a concrete input: the failing BEQ install
makes one attempt, raises the error naming `ReadFile` and `oranbeq12.dll`,
and leaves the module state untouched. -/
theorem lazy_install_failure_amended_witness :
    (oci8_check_win32_beq_functions beqFailState).2.1 = 1 ∧
    (oci8_check_win32_beq_functions beqFailState).2.2 =
      some (raise_message "ReadFile" "oranbeq12.dll") ∧
    (oci8_check_win32_beq_functions beqFailState).1.mods =
      beqFailState.mods := by
  have h := lazy_install_failure_amended beqFailState rfl rfl
  have hp := h.2.2.2 [("oranbeq12.dll", [("WriteFile", 77)])] "ReadFile"
    "oranbeq12.dll" [] (by decide)
  exact ⟨h.1, hp.1, hp.2⟩

/-- C10: with `CancelIoEx` absent, `oci8_check_win32_beq_functions` returns
immediately with no resolution attempt, leaves the state unchanged under
arbitrarily many calls, and so the BEQ hook set stays NotInstalled
permanently. -/
theorem beq_requires_cancelioex (s : Win32State)
    (h : s.cancelIoEx = false) :
    oci8_check_win32_beq_functions s = (s, 0, none) ∧
    (∀ n, iterateCheck n s = s) ∧
    (s.beq_func_replaced = false →
      ∀ n, (iterateCheck n s).beq_func_replaced = false) := by
  have h1 : oci8_check_win32_beq_functions s = (s, 0, none) := by
    simp [oci8_check_win32_beq_functions, h]
  have h2 : ∀ n, iterateCheck n s = s := by
    intro n
    induction n with
    | zero => rfl
    | succ m ih => simp [iterateCheck, h1, ih]
  exact ⟨h1, h2, fun hb n => by rw [h2 n]; exact hb⟩

/-- Witness for C10 at a concrete input: without `CancelIoEx`, three
successive calls change nothing and the BEQ flag stays cleared. -/
theorem beq_requires_cancelioex_witness :
    oci8_check_win32_beq_functions ⟨false, false, []⟩ =
      (⟨false, false, []⟩, 0, none) ∧
    iterateCheck 3 ⟨false, false, []⟩ = ⟨false, false, []⟩ ∧
    (iterateCheck 3 ⟨false, false, []⟩).beq_func_replaced = false := by
  have h := beq_requires_cancelioex ⟨false, false, []⟩ rfl
  exact ⟨h.1, h.2.1 3, h.2.2 rfl 3⟩

end HookFuncs
